import Mathlib

/-!
# Dynamic Modification Pipeline — verification development

A shallow embedding of the LLM-powered game-modification pipeline:
the generation client (`GeminiClient`: retry loop, fenced-code-block
extraction, client-side code validation), the orchestrator
(`LLMService.processModificationRequest`: input validation, safety checks,
sandboxed execution, statistics and the bounded history ring), and a small
interleaving model for the concurrency behaviour of the execution stage.

Strings are modelled as `String` / `List Char` (the sources are ASCII; the
JavaScript UTF-16 `length` coincides with the code-point count there).
The regular-expression tests of the sources are embedded as a tiny pattern
language (`PatItem`) of literals and whitespace runs; all the source regexes
consist only of such atoms, and every `\s*` / `\s+` in them is followed by a
literal beginning with a non-whitespace character, so greedy whitespace
consumption without backtracking coincides with the regex semantics.
Wall-clock durations, memory estimates and the rolling average latency are
not modelled; they are irrelevant to the claims under study.
-/

namespace DynMod

/-! ## Character and list-of-character utilities -/

/-- JavaScript `\s` on the ASCII range: space, tab, newline, carriage return,
vertical tab, form feed.  (The sources only ever meet ASCII input.) -/
def isJsWs (c : Char) : Bool :=
  c = ' ' || c = '\t' || c = '\n' || c = '\r' || c = '\x0b' || c = '\x0c'

/-- Lowercase a character sequence, modelling JavaScript `toLowerCase()` on
the ASCII range. -/
def lowerL (l : List Char) : List Char := l.map Char.toLower

/-- `isPre p s` is true when `p` is a prefix of `s`. -/
def isPre : List Char → List Char → Bool
  | [], _ => true
  | _ :: _, [] => false
  | p :: ps, c :: cs => p = c && isPre ps cs

/-- `containsL pat s` models JavaScript `s.includes(pat)`:
`pat` occurs somewhere in `s` as a contiguous run. -/
def containsL (pat : List Char) : List Char → Bool
  | [] => isPre pat []
  | c :: cs => isPre pat (c :: cs) || containsL pat cs

/-- Case-sensitive `hay.includes(pat)` on strings. -/
def containsS (pat hay : String) : Bool := containsL pat.data hay.data

/-- Case-insensitive containment: `hay.toLowerCase().includes(pat.toLowerCase())`. -/
def containsCI (pat hay : String) : Bool :=
  containsL (lowerL pat.data) (lowerL hay.data)

/-- JavaScript `trim()` (both ends, `\s` characters). -/
def trimL (l : List Char) : List Char :=
  ((l.dropWhile isJsWs).reverse.dropWhile isJsWs).reverse

/-- `trim()` on strings. -/
def trimS (s : String) : String := String.mk (trimL s.data)

/-- JavaScript `code.split('\n')` on a character list: the pieces between
newline characters (an empty input yields one empty piece, as in JS). -/
def splitNl : List Char → List (List Char)
  | [] => [[]]
  | c :: r =>
    if c = '\n' then [] :: splitNl r
    else
      match splitNl r with
      | [] => [[c]]
      | h :: t => (c :: h) :: t

/-- JavaScript `Array.prototype.join(', ')`. -/
def joinComma : List String → String
  | [] => ""
  | [x] => x
  | x :: y :: t => x ++ ", " ++ joinComma (y :: t)

/-! ## A tiny pattern language for the source regexes

Every regex appearing in the sources is an alternation of sequences of
string literals and whitespace runs (`\s*` or `\s+`), e.g.
`/while\s*\(\s*true\s*\)/`.  `PatItem` embeds exactly those atoms. -/

/-- One atom of a source regex: a literal, `\s*`, or `\s+`. -/
inductive PatItem where
  | strAtom : List Char → PatItem
  | wsStar : PatItem
  | wsPlus : PatItem
deriving DecidableEq

/-- Literal atom from a string. -/
def lix (s : String) : PatItem := .strAtom s.data

/-- Match a pattern sequence against the beginning of `s`.  Whitespace runs
are consumed greedily; in all source patterns the atom after a whitespace
run starts with a non-whitespace character, so this agrees with regex
backtracking semantics. -/
def matchP : List PatItem → List Char → Bool
  | [], _ => true
  | .strAtom l :: ps, s => isPre l s && matchP ps (s.drop l.length)
  | .wsStar :: ps, s => matchP ps (s.dropWhile isJsWs)
  | .wsPlus :: ps, s =>
    match s with
    | [] => false
    | c :: cs => isJsWs c && matchP ps (cs.dropWhile isJsWs)

/-- `RegExp.prototype.test`: the pattern matches at some position of `s`. -/
def patTest (p : List PatItem) : List Char → Bool
  | [] => matchP p []
  | c :: cs => matchP p (c :: cs) || patTest p cs

/-- Alternation: any branch matches somewhere. -/
def orTest (alts : List (List PatItem)) (s : List Char) : Bool :=
  alts.any (fun p => patTest p s)

/-! ## GeminiClient.validateGeneratedCode — the client-side safety gate -/

/-- `/while\s*\(\s*true\s*\)/`. -/
def whileTruePat : List PatItem :=
  [lix "while", .wsStar, lix "(", .wsStar, lix "true", .wsStar, lix ")"]

/-- `/for\s*\(\s*;\s*;\s*\)/`. -/
def forSemiPat : List PatItem :=
  [lix "for", .wsStar, lix "(", .wsStar, lix ";", .wsStar, lix ";", .wsStar, lix ")"]

/-- The `dangerousPatterns` list of `GeminiClient.validateGeneratedCode`,
in source order, each with its `pattern.source` rendering. -/
def clientDangerousPatterns : List (List PatItem × String) :=
  [ ([lix "eval", .wsStar, lix "("], "eval\\s*\\("),
    ([lix "Function", .wsStar, lix "("], "Function\\s*\\("),
    ([lix "setTimeout", .wsStar, lix "("], "setTimeout\\s*\\("),
    ([lix "setInterval", .wsStar, lix "("], "setInterval\\s*\\("),
    ([lix "XMLHttpRequest"], "XMLHttpRequest"),
    ([lix "fetch", .wsStar, lix "("], "fetch\\s*\\("),
    ([lix "import", .wsStar, lix "("], "import\\s*\\("),
    ([lix "require", .wsStar, lix "("], "require\\s*\\("),
    ([lix "process."], "process\\."),
    ([lix "global."], "global\\."),
    ([lix "window."], "window\\."),
    ([lix "document."], "document\\.") ]

/-- The `infiniteLoopPatterns` list of `GeminiClient.validateGeneratedCode`. -/
def clientInfiniteLoopPatterns : List (List PatItem × String) :=
  [ (whileTruePat, "while\\s*\\(\\s*true\\s*\\)"),
    (forSemiPat, "for\\s*\\(\\s*;\\s*;\\s*\\)") ]

/-- First matching pattern of a list, returning its `source` rendering. -/
def firstMatch (pats : List (List PatItem × String)) (code : List Char) : Option String :=
  match pats with
  | [] => none
  | (p, src) :: rest => if patTest p code then some src else firstMatch rest code

/-- `GeminiClient.validateGeneratedCode`: throws on a dangerous pattern, then
on more than 50 `split('\n')` lines, then on an infinite-loop pattern. -/
def validateGeneratedCode (code : String) : Except String Unit :=
  match firstMatch clientDangerousPatterns code.data with
  | some src => .error ("Generated code contains dangerous pattern: " ++ src)
  | none =>
    if 50 < (splitNl code.data).length then
      .error "Generated code exceeds 50 lines limit"
    else
      match firstMatch clientInfiniteLoopPatterns code.data with
      | some src => .error ("Generated code contains potential infinite loop: " ++ src)
      | none => .ok ()

/-! ## LLMService.performSafetyChecks — the orchestrator-side safety gate -/

/-- The `dangerousPatterns` list of `LLMService.performSafetyChecks`:
alternation branches, description, `pattern.source`. -/
def orchDangerousPatterns : List (List (List PatItem) × String × String) :=
  [ ([[lix "eval", .wsStar, lix "("]], ("Code evaluation", "eval\\s*\\(")),
    ([[lix "Function", .wsStar, lix "("]], ("Dynamic function creation", "Function\\s*\\(")),
    ([[lix "setTimeout"], [lix "setInterval"]], ("Timer functions", "setTimeout|setInterval")),
    ([[lix "XMLHttpRequest"], [lix "fetch"]], ("Network requests", "XMLHttpRequest|fetch")),
    ([[lix "import", .wsStar, lix "("], [lix "require", .wsStar, lix "("]],
      ("Dynamic imports", "import\\s*\\(|require\\s*\\(")),
    ([[lix "process."], [lix "global."], [lix "window."]],
      ("Global object access", "process\\.|global\\.|window\\.")),
    ([whileTruePat, forSemiPat],
      ("Infinite loops", "while\\s*\\(\\s*true\\s*\\)|for\\s*\\(\\s*;\\s*;\\s*\\)")) ]

/-- The `suspiciousRequests` list of `LLMService.performSafetyChecks` (all
flagged `i`, so they are tested against the lowercased user request). -/
def suspiciousRequestPatterns : List (List (List PatItem) × String) :=
  [ ([[lix "hack"], [lix "exploit"], [lix "cheat"], [lix "bypass"], [lix "break"]],
      "hack|exploit|cheat|bypass|break"),
    ([[lix "delete", .wsPlus, lix "all"], [lix "destroy", .wsPlus, lix "everything"],
      [lix "crash"]],
      "delete\\s+all|destroy\\s+everything|crash"),
    ([[lix "infinite"], [lix "unlimited"], [lix "maximum"]],
      "infinite|unlimited|maximum") ]

/-- Is a split line non-blank (`line.trim().length > 0`)? -/
def nonBlankLine (l : List Char) : Bool := !(trimL l).isEmpty

/-- The `violations` list computed by `LLMService.performSafetyChecks`:
all matching code patterns, then the complexity check over non-blank lines,
then the suspicious user-request patterns. -/
def performSafetyChecksViolations (code userRequest : String) : List String :=
  let codeViolations := orchDangerousPatterns.filterMap
    (fun a => if orTest a.1 code.data then some (a.2.1 ++ ": " ++ a.2.2) else none)
  let lineCount := ((splitNl code.data).filter nonBlankLine).length
  let complexityViolations :=
    if 50 < lineCount then
      ["Code too complex: " ++ toString lineCount ++ " lines (max 50)"]
    else []
  let requestViolations := suspiciousRequestPatterns.filterMap
    (fun a => if orTest a.1 (lowerL userRequest.data) then
        some ("Suspicious request pattern: " ++ a.2)
      else none)
  codeViolations ++ complexityViolations ++ requestViolations

/-! ## GeminiClient.extractCodeBlocks / extractExplanation / parseCodeResponse

The source extracts fenced blocks with the global regex
`/```(?:javascript|js)?\n?([\s\S]*?)```/gi` via an `exec` loop, and the
explanation is the response text with every match replaced by the empty
string, trimmed.  The scanner below reproduces those semantics directly:
at each position, an opening fence consumes three backticks, an optional
case-insensitive `javascript` / `js` tag (alternation tried in that order),
an optional newline, and then lazily captures up to the next triple
backtick; if no closing fence follows, the engine moves one character
forward, exactly as the regex engine does.  The scanner is fuel-indexed
(fuel `length + 1` always suffices: every step consumes at least one
character) so that every definition stays structurally recursive and
kernel-reducible. -/

/-- The backtick character (written by code point). -/
def bq : Char := '\x60'

/-- Is this character a backtick? -/
def isBq (c : Char) : Bool := c = bq

/-- At least one leading backtick. -/
def fence1 : List Char → Bool
  | c :: _ => isBq c
  | [] => false

/-- At least two leading backticks. -/
def fence2 : List Char → Bool
  | c :: r => isBq c && fence1 r
  | [] => false

/-- At least three leading backticks: an opening or closing fence. -/
def fenceB : List Char → Bool
  | c :: r => isBq c && fence2 r
  | [] => false

/-- Case-insensitive literal prefix: `lowPre p s` consumes `p` (already
lowercased) from the front of `s`, comparing lowercased characters, and
returns the rest of `s` on success. -/
def lowPre : List Char → List Char → Option (List Char)
  | [], s => some s
  | _ :: _, [] => none
  | p :: ps, c :: cs => if Char.toLower c = p then lowPre ps cs else none

/-- Consume the optional `(?:javascript|js)` tag (case-insensitive,
`javascript` tried first, as in the regex alternation). -/
def stripTag (s : List Char) : List Char :=
  match lowPre ("javascript").data s with
  | some r => r
  | none =>
    match lowPre ("js").data s with
    | some r => r
    | none => s

/-- Consume the optional `\n?`. -/
def stripNl : List Char → List Char
  | '\n' :: r => r
  | s => s

/-- Split `l` at its first triple-backtick occurrence: the lazily captured
text before it and the remainder after it. -/
def findClose : List Char → Option (List Char × List Char)
  | [] => none
  | c :: r =>
    if fenceB (c :: r) then some ([], r.drop 2)
    else
      match findClose r with
      | some (cap, rem) => some (c :: cap, rem)
      | none => none

/-- The `exec`-loop scanner: returns the raw captured blocks and the text
outside the matches (the source of the explanation). -/
def scanGo : Nat → List Char → List (List Char) × List Char
  | 0, s => ([], s)
  | _ + 1, [] => ([], [])
  | fuel + 1, c :: rest =>
    if fenceB (c :: rest) then
      match findClose (stripNl (stripTag (rest.drop 2))) with
      | some (cap, rem) =>
        let p := scanGo fuel rem
        (cap :: p.1, p.2)
      | none =>
        let p := scanGo fuel rest
        (p.1, c :: p.2)
    else
      let p := scanGo fuel rest
      (p.1, c :: p.2)

/-- `GeminiClient.extractCodeBlocks` (each capture is `trim()`ed). -/
def extractCodeBlocks (text : String) : List String :=
  ((scanGo (text.data.length + 1) text.data).1).map (fun b => String.mk (trimL b))

/-- `GeminiClient.extractExplanation`: the response text with all code-block
matches removed, trimmed. -/
def extractExplanation (text : String) : String :=
  String.mk (trimL (scanGo (text.data.length + 1) text.data).2)

/-- The value assembled by `GeminiClient.parseCodeResponse` (the fields the
pipeline consumes: code, explanation, number of candidate blocks). -/
structure ParsedCode where
  code : String
  explanation : String
  codeBlocks : Nat
deriving DecidableEq

/-- `GeminiClient.parseCodeResponse`: zero blocks is a hard failure; the
first block becomes the code (after client-side validation); the rest of
the text becomes the explanation. -/
def parseCodeResponse (text : String) : Except String ParsedCode :=
  match extractCodeBlocks text with
  | [] => .error "No code blocks found in response"
  | mainCode :: restBlocks =>
    match validateGeneratedCode mainCode with
    | .error m => .error m
    | .ok _ =>
      .ok { code := mainCode
            explanation := extractExplanation text
            codeBlocks := restBlocks.length + 1 }

/-! ## Error classification -/

/-- `LLMService.categorizeError` (substring checks on the lowercased
message, in source order). -/
def categorizeError (msg : String) : String :=
  let m := String.mk (lowerL msg.data)
  if containsS "timeout" m then "timeout"
  else if containsS "safety" m || containsS "violation" m then "safety"
  else if containsS "syntax" m then "syntax"
  else if containsS "reference" m then "reference"
  else if containsS "api key" m || containsS "authentication" m then "authentication"
  else if containsS "rate limit" m || containsS "quota" m then "rate_limit"
  else if containsS "network" m then "network"
  else "unknown"

/-- `LLMService.categorizeExecutionError`. -/
def categorizeExecutionError (msg : String) : String :=
  let m := String.mk (lowerL msg.data)
  if containsS "timeout" m then "execution_timeout"
  else if containsS "memory" m then "memory_limit"
  else if containsS "not defined" m then "undefined_reference"
  else if containsS "not a function" m then "invalid_function_call"
  else "execution_error"

/-! ## GeminiClient.makeRequestWithRetry

The oracle (one network attempt, already raced against the per-attempt
timeout) is abstracted as a function from the attempt number (1-based) to
its outcome.  The loop result is modelled together with the number of
oracle calls made and the list of backoff delays slept, so the retry policy
is fully observable. -/

/-- `GeminiClient.shouldNotRetry`: the error message, lowercased, contains
one of the non-retryable markers. -/
def shouldNotRetry (msg : String) : Bool :=
  (["API key", "authentication", "invalid request", "malformed"] : List String).any
    (fun pat => containsL (lowerL pat.data) (lowerL msg.data))

/-- The `for (attempt = 1; attempt <= retryAttempts; ...)` loop of
`makeRequestWithRetry`, fuel-indexed by the remaining attempts.  Returns the
outcome, the number of oracle calls, and the backoff delays
(`retryDelay * 2 ^ (attempt - 1)` before each retry). -/
def retryLoop (oracle : Nat → Except String String) (retryDelay : Nat) :
    Nat → Nat → Except String String × Nat × List Nat
  | _, 0 => (.error "no attempts", 0, [])
  | attempt, fuel + 1 =>
    match oracle attempt with
    | .ok r => (.ok r, 1, [])
    | .error e =>
      if shouldNotRetry e then (.error e, 1, [])
      else
        match fuel with
        | 0 => (.error e, 1, [])
        | f + 1 =>
          let rest := retryLoop oracle retryDelay (attempt + 1) (f + 1)
          (rest.1, rest.2.1 + 1, retryDelay * 2 ^ (attempt - 1) :: rest.2.2)

/-- `GeminiClient.makeRequestWithRetry` with `retryAttempts` attempts. -/
def makeRequestWithRetry (oracle : Nat → Except String String)
    (retryAttempts retryDelay : Nat) : Except String String × Nat × List Nat :=
  retryLoop oracle retryDelay 1 retryAttempts

/-! ## LLMService — the request orchestrator

`processModificationRequest` is embedded as a state-transition function.
External effects are abstracted as parameters:

* the oracle round-trip (`GeminiClient.generateContent`, including its
  internal retry loop) is a value `Except String String` — either the raw
  response text or the propagated error;
* the behaviour of the generated code inside the sandbox is an `ExecSpec`:
  its outcome (return or thrown message) plus the number of simulation
  mutations it performs through the capability surface before finishing.

`executorCalls` counts invocations of the sandboxed executor
(`executeGeneratedCode` reaching `executeWithTimeout`), and `simCounter`
accumulates mutations performed through the capability surface — together
they model the spy capability surface of the spec.  `idsAllocated` counts
calls of `generateRequestId` (the source allocates the id at the top of
`processModificationRequest`, before input validation); ids are modelled as
the successive values of this counter.  Timing fields (durations, rolling
average latency) are not modelled. -/

/-- The behaviour of one generated-code run inside the sandbox. -/
structure ExecSpec where
  outcome : Except String Unit
  effect : Nat := 0

/-- The structured outcome built by `LLMService.executeGeneratedCode`
(success flag and, on failure, the classified error). -/
structure ExecOutcome where
  success : Bool
  errorType : Option String := none
  errorMessage : Option String := none
deriving DecidableEq

/-- `LLMService.executeGeneratedCode`: every thrown exception is caught and
classified; the function always returns normally. -/
def executeGeneratedCode (spec : ExecSpec) : ExecOutcome :=
  match spec.outcome with
  | .ok _ => { success := true }
  | .error msg =>
    { success := false
      errorType := some (categorizeExecutionError msg)
      errorMessage := some msg }

/-- The top-level result object of a request that ran to the end of the
`try` block (the source tags it `success: true` unconditionally). -/
structure PMResult where
  rid : Nat
  success : Bool
  generatedCode : String
  explanation : String
  executionResult : ExecOutcome
  tokensUsed : Nat
deriving DecidableEq

/-- One entry of the execution history: either a completed result
(`success = true`, carrying the nested execution outcome) or an error
record built by `handleError` (`success = false`, carrying the classified
error kind).  The source has no cancellation marking of any sort. -/
structure HistoryEntry where
  rid : Nat
  success : Bool
  executionResult : Option ExecOutcome := none
  errorType : Option String := none
deriving DecidableEq

/-- The `stats` counters of `LLMService`. -/
structure Stats where
  totalRequests : Nat := 0
  successfulExecutions : Nat := 0
  failedExecutions : Nat := 0
  totalTokensUsed : Nat := 0
  safetyViolations : Nat := 0
deriving DecidableEq

/-- The mutable service state of `LLMService`. -/
structure SvcState where
  stats : Stats := {}
  executionHistory : List HistoryEntry := []
  pending : List Nat := []
  idsAllocated : Nat := 0
  executorCalls : Nat := 0
  simCounter : Nat := 0
  enableSafetyChecks : Bool := true
deriving DecidableEq

/-- A freshly constructed service. -/
def initState : SvcState := {}

/-- `LLMService.addToHistory`: push, then evict the oldest entry when the
ring exceeds 50. -/
def addToHistory (h : List HistoryEntry) (e : HistoryEntry) : List HistoryEntry :=
  if 50 < (h ++ [e]).length then (h ++ [e]).tail else h ++ [e]

/-- `LLMService.getHistory(limit)` = `executionHistory.slice(-limit)`.
(For `limit = 0`, JavaScript `slice(-0)` is `slice(0)`: the whole array.) -/
def getHistory (limit : Nat) (h : List HistoryEntry) : List HistoryEntry :=
  if limit = 0 then h else h.drop (h.length - limit)

/-- `estimatedTokens = Math.ceil(text.length / 4)` from
`GeminiClient.processResponse`. -/
def estimatedTokens (text : String) : Nat := (text.length + 3) / 4

/-- Allocate a request id (`generateRequestId` at the top of
`processModificationRequest`). -/
def bumpId (st : SvcState) : SvcState := { st with idsAllocated := st.idsAllocated + 1 }

/-- The state after input validation passed: id allocated,
`stats.totalRequests` incremented, the request tracked as pending. -/
def postGenState (st : SvcState) : SvcState :=
  { st with
      idsAllocated := st.idsAllocated + 1
      stats := { st.stats with totalRequests := st.stats.totalRequests + 1 }
      pending := st.pending ++ [st.idsAllocated] }

/-- `stats.safetyViolations++` inside `performSafetyChecks`. -/
def addSafetyViolation (st : SvcState) : SvcState :=
  { st with stats := { st.stats with safetyViolations := st.stats.safetyViolations + 1 } }

/-- Where the first half of `processModificationRequest` ended: a validation
throw (before the `try` block — no statistics or history are touched), an
error thrown inside the `try` block, or code ready for execution
(id, code, explanation, token estimate). -/
inductive PhaseARes where
  | failedValidation : Nat → String → PhaseARes
  | errored : Nat → String → PhaseARes
  | ready : Nat → String → String → Nat → PhaseARes
deriving DecidableEq

/-- `processModificationRequest` up to (not including) the execution stage:
input validation, id allocation, generation (`generateGameCode` =
oracle round-trip + `parseCodeResponse`), and `performSafetyChecks`. -/
def phaseA (st : SvcState) (userRequest : String)
    (oracleResponse : Except String String) : PhaseARes × SvcState :=
  if userRequest = "" then
    (.failedValidation st.idsAllocated "User request must be a non-empty string", bumpId st)
  else if 1000 < userRequest.length then
    (.failedValidation st.idsAllocated "User request too long. Maximum 1000 characters.",
     bumpId st)
  else
    match oracleResponse with
    | .error m => (.errored st.idsAllocated m, postGenState st)
    | .ok text =>
      match parseCodeResponse text with
      | .error m => (.errored st.idsAllocated m, postGenState st)
      | .ok pc =>
        if st.enableSafetyChecks then
          match performSafetyChecksViolations pc.code userRequest with
          | [] => (.ready st.idsAllocated pc.code pc.explanation (estimatedTokens text),
                   postGenState st)
          | v :: vs =>
            (.errored st.idsAllocated
               ("Safety violations detected: " ++ joinComma (v :: vs)),
             addSafetyViolation (postGenState st))
        else
          (.ready st.idsAllocated pc.code pc.explanation (estimatedTokens text),
           postGenState st)

/-- The execution stage and the success epilogue of
`processModificationRequest`: invoke the sandboxed executor, build the
`success: true` result, update `successfulExecutions` and token statistics,
append to history, and (in `finally`) drop the pending entry. -/
def phaseB (st : SvcState) (rid : Nat) (code expl : String) (tokens : Nat)
    (spec : ExecSpec) : PMResult × SvcState :=
  ({ rid := rid
     success := true
     generatedCode := code
     explanation := expl
     executionResult := executeGeneratedCode spec
     tokensUsed := tokens },
   { st with
       executorCalls := st.executorCalls + 1
       simCounter := st.simCounter + spec.effect
       stats := { st.stats with
                    successfulExecutions := st.stats.successfulExecutions + 1
                    totalTokensUsed := st.stats.totalTokensUsed + tokens }
       executionHistory := addToHistory st.executionHistory
         { rid := rid, success := true, executionResult := some (executeGeneratedCode spec) }
       pending := st.pending.erase rid })

/-- `LLMService.handleError` followed by the `finally` block: increment
`failedExecutions`, append the classified error record to history, drop the
pending entry.  (The original error is rethrown to the caller.) -/
def finishWithError (st : SvcState) (rid : Nat) (msg : String) : SvcState :=
  { st with
      stats := { st.stats with failedExecutions := st.stats.failedExecutions + 1 }
      executionHistory := addToHistory st.executionHistory
        { rid := rid, success := false, errorType := some (categorizeError msg) }
      pending := st.pending.erase rid }

/-- `LLMService.processModificationRequest`, end to end. -/
def processModificationRequest (st : SvcState) (userRequest : String)
    (oracleResponse : Except String String) (spec : ExecSpec) :
    Except String PMResult × SvcState :=
  match phaseA st userRequest oracleResponse with
  | (.failedValidation _ m, st1) => (.error m, st1)
  | (.errored rid m, st1) => (.error m, finishWithError st1 rid m)
  | (.ready rid code expl tokens, st1) =>
    let r := phaseB st1 rid code expl tokens spec
    (.ok r.1, r.2)

/-- `LLMService.cancelRequest` = `pendingRequests.delete(requestId)`:
returns whether the id was pending and removes it.  Nothing else in the
source reads a cancellation flag. -/
def cancelRequest (st : SvcState) (rid : Nat) : Bool × SvcState :=
  (st.pending.contains rid, { st with pending := st.pending.erase rid })

/-- A request interleaved with a concurrent `cancelRequest` that lands after
the request has entered the execution stage (the JavaScript interleaving
point: `cancelRequest` runs on the event loop while
`processModificationRequest` is suspended before/inside `await`s of the
execution stage). -/
def processWithCancelMidExecution (st : SvcState) (userRequest : String)
    (oracleResponse : Except String String) (spec : ExecSpec) :
    Bool × Except String PMResult × SvcState :=
  match phaseA st userRequest oracleResponse with
  | (.failedValidation rid m, st1) =>
    let c := cancelRequest st1 rid
    (c.1, .error m, c.2)
  | (.errored rid m, st1) =>
    let st2 := finishWithError st1 rid m
    let c := cancelRequest st2 rid
    (c.1, .error m, c.2)
  | (.ready rid code expl tokens, st1) =>
    let c := cancelRequest st1 rid
    let r := phaseB c.2 rid code expl tokens spec
    (c.1, .ok r.1, r.2)

/-! ## The execution stage under concurrency

`executeGeneratedCode` takes no lock and keeps no queue: a request reaches
the execution stage whenever its oracle round-trip (`await generateGameCode`)
resumes, and `executeWithTimeout` then runs the generated code
*synchronously* (`new Function(...)` is created and called with no
intervening `await`), so on the single-threaded event loop the whole run of
one generated snippet is a single uninterruptible step.

This is modelled as schedules over two abstract steps per request:
`genDone i` (request `i`'s generation completes) and `execRun i` (request
`i`'s generated code runs, atomically).  The code constrains only the
per-request order (generation before execution); the relative order across
requests is free — there is no FIFO queue.  The generated code of the
spec's concurrency scenario increments a shared counter by one, which is
what `runSched` executes. -/

/-- One event-loop step of the execution stage. -/
inductive Step where
  | genDone : Nat → Step
  | execRun : Nat → Step
deriving DecidableEq, BEq

/-- Run a schedule over the shared counter: each (atomic) execution step
increments it once. -/
def runSched : List Step → Nat → Nat
  | [], n => n
  | .genDone _ :: r, n => runSched r n
  | .execRun _ :: r, n => runSched r (n + 1)

/-- The request ids in execution order. -/
def execOrder : List Step → List Nat
  | [] => []
  | .genDone _ :: r => execOrder r
  | .execRun i :: r => i :: execOrder r

/-- The request ids in generation-completion order. -/
def genOrder : List Step → List Nat
  | [] => []
  | .genDone i :: r => i :: genOrder r
  | .execRun _ :: r => genOrder r

/-- A schedule the source admits for the concurrently submitted requests
`ids`: every request generates once and executes once, and its execution
follows its generation.  Nothing orders distinct requests. -/
def validSched (ids : List Nat) (s : List Step) : Prop :=
  List.Perm (execOrder s) ids ∧ List.Perm (genOrder s) ids ∧
    ∀ i ∈ ids, s.findIdx (fun x => x == Step.genDone i) <
      s.findIdx (fun x => x == Step.execRun i)

instance validSchedDecidable (ids : List Nat) (s : List Step) :
    Decidable (validSched ids s) := by
  unfold validSched
  exact inferInstance

/-! ## Concrete fixtures used by counterexamples and witnesses -/

/-- A benign user request (no suspicious-request pattern matches it). -/
def goodReq : String := "Create a red player"

/-- An oracle response with one fenced block of benign code. -/
def goodResponse : String := "Adding a player\n```js\ngame.createEntity()\n```"

/-- An oracle response whose single fenced block is `while (true) {}`. -/
def loopResponse : String := "```javascript\nwhile (true) \x7b\x7d\n```"

/-- The code extracted from `loopResponse`. -/
def loopCode : String := "while (true) \x7b\x7d"

/-- The violation message naming the infinite-loop rule. -/
def loopRuleMsg : String :=
  "Generated code contains potential infinite loop: while\\s*\\(\\s*true\\s*\\)"

/-- An oracle response whose single fenced block is the bare word `fetch`. -/
def fetchResponse : String := "x\n```js\nfetch\n```"

/-- A user request of 1001 characters. -/
def longReq : String := String.mk (List.replicate 1001 'a')

/-- Generated code that returns normally with no simulation effect. -/
def okSpec : ExecSpec := { outcome := .ok () }

/-- Generated code that throws `boom`. -/
def failSpec : ExecSpec := { outcome := .error "boom" }

/-- Generated code that increments the simulation once and returns. -/
def effSpec : ExecSpec := { outcome := .ok (), effect := 1 }

/-! ## Equation lemmas for `phaseA` -/

lemma phaseA_ready (st : SvcState) (req text : String) (pc : ParsedCode)
    (hne : req ≠ "") (hlen : ¬ 1000 < req.length)
    (hparse : parseCodeResponse text = .ok pc)
    (hen : st.enableSafetyChecks = true)
    (hsafe : performSafetyChecksViolations pc.code req = []) :
    phaseA st req (.ok text) =
      (.ready st.idsAllocated pc.code pc.explanation (estimatedTokens text),
       postGenState st) := by
  simp [phaseA, hne, hlen, hparse, hen, hsafe]

lemma phaseA_clientError (st : SvcState) (req text m : String)
    (hne : req ≠ "") (hlen : ¬ 1000 < req.length)
    (hparse : parseCodeResponse text = .error m) :
    phaseA st req (.ok text) = (.errored st.idsAllocated m, postGenState st) := by
  simp [phaseA, hne, hlen, hparse]

lemma phaseA_safetyViolation (st : SvcState) (req text : String) (pc : ParsedCode)
    (v : String) (vs : List String)
    (hne : req ≠ "") (hlen : ¬ 1000 < req.length)
    (hparse : parseCodeResponse text = .ok pc)
    (hen : st.enableSafetyChecks = true)
    (hsafe : performSafetyChecksViolations pc.code req = v :: vs) :
    phaseA st req (.ok text) =
      (.errored st.idsAllocated ("Safety violations detected: " ++ joinComma (v :: vs)),
       addSafetyViolation (postGenState st)) := by
  simp [phaseA, hne, hlen, hparse, hen, hsafe]

lemma phaseA_overlong (st : SvcState) (req : String) (o : Except String String)
    (h : 1000 < req.length) :
    phaseA st req o =
      (.failedValidation st.idsAllocated "User request too long. Maximum 1000 characters.",
       bumpId st) := by
  have hne : req ≠ "" := by
    intro he
    rw [he] at h
    exact absurd h (by decide)
  simp [phaseA, hne, h]

lemma executeGeneratedCode_error (spec : ExecSpec) (msg : String)
    (h : spec.outcome = .error msg) :
    executeGeneratedCode spec =
      { success := false
        errorType := some (categorizeExecutionError msg)
        errorMessage := some msg } := by
  unfold executeGeneratedCode
  rw [h]

/-! ## C1 — denial-listed code: blocked, executor dark, but counted as failed -/

/-- C1 counterexample.  The generated code `while (true) {}` matches the
infinite-loop denial rule; running the pipeline on it from a fresh service
blocks the request with the violation naming the rule and never invokes the
sandboxed executor — but `stats.safetyViolations` stays `0` (the request is
recorded as a failed execution), refuting the claim that such a request is
counted as safety-blocked. -/
theorem C1_counterexample :
    processModificationRequest initState goodReq (.ok loopResponse) okSpec =
      (.error loopRuleMsg,
       { stats := { totalRequests := 1, failedExecutions := 1 }
         executionHistory := [{ rid := 0, success := false, errorType := some "unknown" }]
         idsAllocated := 1 }) := by
  rfl

/-- C1 (amended): generated code matching a client-side denial rule (the
infinite-loop idioms among them) aborts the pipeline during generation
parsing with the violation message naming the matched rule; the sandboxed
executor is never invoked and no simulation mutation happens; but the
request is counted as a failed execution — the safety-blocked counter
(`stats.safetyViolations`) is untouched, because `performSafetyChecks` is
never reached. -/
theorem C1_clientGateBlocks (st : SvcState) (req text b m : String) (bs : List String)
    (spec : ExecSpec)
    (hne : req ≠ "") (hlen : ¬ 1000 < req.length)
    (hblocks : extractCodeBlocks text = b :: bs)
    (hval : validateGeneratedCode b = .error m) :
    processModificationRequest st req (.ok text) spec =
      (.error m, finishWithError (postGenState st) st.idsAllocated m) ∧
    (finishWithError (postGenState st) st.idsAllocated m).executorCalls = st.executorCalls ∧
    (finishWithError (postGenState st) st.idsAllocated m).simCounter = st.simCounter ∧
    (finishWithError (postGenState st) st.idsAllocated m).stats.safetyViolations =
      st.stats.safetyViolations ∧
    (finishWithError (postGenState st) st.idsAllocated m).stats.failedExecutions =
      st.stats.failedExecutions + 1 ∧
    (finishWithError (postGenState st) st.idsAllocated m).executionHistory =
      addToHistory st.executionHistory
        { rid := st.idsAllocated, success := false, errorType := some (categorizeError m) } := by
  have hparse : parseCodeResponse text = .error m := by
    unfold parseCodeResponse
    rw [hblocks]
    simp [hval]
  refine ⟨?_, ?_, ?_, ?_, ?_, ?_⟩
  · unfold processModificationRequest
    rw [phaseA_clientError st req text m hne hlen hparse]
  · simp [finishWithError, postGenState]
  · simp [finishWithError, postGenState]
  · simp [finishWithError, postGenState]
  · simp [finishWithError, postGenState]
  · simp [finishWithError, postGenState]

/-- C1 witness: the amended theorem applied to the `while (true) {}`
scenario on a fresh service. -/
theorem C1_clientGateBlocks_witness :
    processModificationRequest initState goodReq (.ok loopResponse) okSpec =
      (.error loopRuleMsg, finishWithError (postGenState initState) 0 loopRuleMsg) :=
  (C1_clientGateBlocks initState goodReq loopResponse loopCode loopRuleMsg [] okSpec
    (by decide) (by decide) rfl rfl).1

/-! ## C3 — execution failures are appended to history but counted as successes -/

/-- C3 counterexample.  A request whose sandboxed execution throws `boom`
ends with `successfulExecutions = 1` and `failedExecutions = 0` (and a
top-level `.ok` result), refuting the claim that the failed counter — and
not the succeeded counter — is incremented. -/
theorem C3_counterexample :
    (processModificationRequest initState goodReq (.ok goodResponse) failSpec).2.stats.successfulExecutions = 1 ∧
    (processModificationRequest initState goodReq (.ok goodResponse) failSpec).2.stats.failedExecutions = 0 ∧
    (processModificationRequest initState goodReq (.ok goodResponse) failSpec).1 =
      .ok { rid := 0
            success := true
            generatedCode := "game.createEntity()"
            explanation := "Adding a player"
            executionResult := { success := false
                                 errorType := some "execution_error"
                                 errorMessage := some "boom" }
            tokensUsed := 12 } := by
  refine ⟨rfl, rfl, rfl⟩

/-- C3 (amended): a request whose sandboxed execution fails (outcome
`success = false`) is appended to history like any other completed request,
carrying the failed nested outcome — but the orchestrator increments the
*succeeded* counter and leaves the failed counter untouched (the failed
counter only counts errors that propagate out of the `try` block), so the
derived success rate does not reflect execution failures. -/
theorem C3_execFailureCountedSuccess (st : SvcState) (req text msg : String)
    (pc : ParsedCode) (spec : ExecSpec)
    (hne : req ≠ "") (hlen : ¬ 1000 < req.length)
    (hparse : parseCodeResponse text = .ok pc)
    (hen : st.enableSafetyChecks = true)
    (hsafe : performSafetyChecksViolations pc.code req = [])
    (hfail : spec.outcome = .error msg) :
    (processModificationRequest st req (.ok text) spec).2.stats.successfulExecutions =
      st.stats.successfulExecutions + 1 ∧
    (processModificationRequest st req (.ok text) spec).2.stats.failedExecutions =
      st.stats.failedExecutions ∧
    (processModificationRequest st req (.ok text) spec).2.executionHistory =
      addToHistory st.executionHistory
        { rid := st.idsAllocated
          success := true
          executionResult := some
            { success := false
              errorType := some (categorizeExecutionError msg)
              errorMessage := some msg } } := by
  unfold processModificationRequest
  rw [phaseA_ready st req text pc hne hlen hparse hen hsafe]
  refine ⟨?_, ?_, ?_⟩
  · simp [phaseB, postGenState]
  · simp [phaseB, postGenState]
  · simp [phaseB, postGenState, executeGeneratedCode_error spec msg hfail]

/-- C3 witness: the amended theorem applied to the `boom`-throwing
execution on a fresh service. -/
theorem C3_execFailureCountedSuccess_witness :
    (processModificationRequest initState goodReq (.ok goodResponse) failSpec).2.stats.successfulExecutions = 1 ∧
    (processModificationRequest initState goodReq (.ok goodResponse) failSpec).2.stats.failedExecutions = 0 :=
  ⟨(C3_execFailureCountedSuccess initState goodReq goodResponse "boom"
      { code := "game.createEntity()", explanation := "Adding a player", codeBlocks := 1 }
      failSpec (by decide) (by decide) rfl rfl rfl rfl).1,
   (C3_execFailureCountedSuccess initState goodReq goodResponse "boom"
      { code := "game.createEntity()", explanation := "Adding a player", codeBlocks := 1 }
      failSpec (by decide) (by decide) rfl rfl rfl rfl).2.1⟩

/-! ## C4 — the two safety passes are not identical -/

/-- C4 counterexample.  The code string `fetch` is accepted by the
client-side pass (`validateGeneratedCode` requires `fetch\s*\(`) but
rejected by the orchestrator pass (`performSafetyChecks` matches the bare
word via `XMLHttpRequest|fetch`), refuting the claim that the two passes
run identical logic and reject exactly the same inputs. -/
theorem C4_counterexample :
    validateGeneratedCode "fetch" = .ok () ∧
    performSafetyChecksViolations "fetch" goodReq =
      ["Network requests: XMLHttpRequest|fetch"] := by
  refine ⟨rfl, rfl⟩

/-- C4 (amended): safety validation is applied twice per request — once by
the generation client on the parsed artifact and once by the orchestrator
before execution — but with *different* denial lists.  Both gates guard the
executor: a response whose extracted code fails the client pass never
reaches the executor, and code that passes the client pass but trips the
orchestrator pass is blocked before execution with the safety-blocked
counter incremented.  No divergence-detection mechanism exists beyond
this. -/
theorem C4_twoGatesGuardExecution :
    (∀ (st : SvcState) (req text m : String) (spec : ExecSpec),
       req ≠ "" → ¬ 1000 < req.length → parseCodeResponse text = .error m →
       (processModificationRequest st req (.ok text) spec).2.executorCalls =
         st.executorCalls) ∧
    (∀ (st : SvcState) (req text : String) (pc : ParsedCode) (v : String)
       (vs : List String) (spec : ExecSpec),
       req ≠ "" → ¬ 1000 < req.length → parseCodeResponse text = .ok pc →
       st.enableSafetyChecks = true →
       performSafetyChecksViolations pc.code req = v :: vs →
       (processModificationRequest st req (.ok text) spec).2.executorCalls =
         st.executorCalls ∧
       (processModificationRequest st req (.ok text) spec).2.stats.safetyViolations =
         st.stats.safetyViolations + 1) := by
  constructor
  · intro st req text m spec hne hlen hparse
    unfold processModificationRequest
    rw [phaseA_clientError st req text m hne hlen hparse]
    simp [finishWithError, postGenState]
  · intro st req text pc v vs spec hne hlen hparse hen hsafe
    unfold processModificationRequest
    rw [phaseA_safetyViolation st req text pc v vs hne hlen hparse hen hsafe]
    constructor
    · simp [finishWithError, addSafetyViolation, postGenState]
    · simp [finishWithError, addSafetyViolation, postGenState]

/-- C4 witness: the orchestrator-only rejection of the bare `fetch`
response on a fresh service — the executor stays dark and the
safety-blocked counter becomes `1`. -/
theorem C4_twoGatesGuardExecution_witness :
    (processModificationRequest initState goodReq (.ok fetchResponse) okSpec).2.executorCalls = 0 ∧
    (processModificationRequest initState goodReq (.ok fetchResponse) okSpec).2.stats.safetyViolations = 1 :=
  C4_twoGatesGuardExecution.2 initState goodReq fetchResponse
    { code := "fetch", explanation := "x", codeBlocks := 1 }
    "Network requests: XMLHttpRequest|fetch" [] okSpec
    (by decide) (by decide) rfl rfl rfl

/-! ## C6 — overlong input: rejected without statistics, but the id is
already allocated -/

set_option maxRecDepth 40000 in
/-- C6 counterexample.  Submitting a 1001-character request from a fresh
service fails with the validation error and leaves statistics and history
untouched — but `generateRequestId` has already run (`idsAllocated = 1`),
refuting the claim that the failure happens before a request id is
allocated. -/
theorem C6_counterexample :
    processModificationRequest initState longReq (.ok goodResponse) okSpec =
      (.error "User request too long. Maximum 1000 characters.",
       { initState with idsAllocated := 1 }) := by
  rfl

/-- C6 (amended): for every user text longer than 1000 characters,
submitting fails with the validation error without touching statistics,
history, pending tracking, or the executor — the only state change is the
request-id counter, which the source bumps *before* validation (the fresh
id is then discarded). -/
theorem C6_overlongRejected (st : SvcState) (req : String)
    (o : Except String String) (spec : ExecSpec) (h : 1000 < req.length) :
    processModificationRequest st req o spec =
      (.error "User request too long. Maximum 1000 characters.", bumpId st) := by
  unfold processModificationRequest
  rw [phaseA_overlong st req o h]

set_option maxRecDepth 40000 in
/-- C6 witness: the amended theorem applied to the 1001-character request
on a fresh service. -/
theorem C6_overlongRejected_witness :
    processModificationRequest initState longReq (.ok goodResponse) okSpec =
      (.error "User request too long. Maximum 1000 characters.", bumpId initState) :=
  C6_overlongRejected initState longReq (.ok goodResponse) okSpec (by decide)

/-! ## C8 — cancellation is only removal from the pending map -/

/-- C8 counterexample.  Cancelling a request that has entered the execution
stage returns `true`, the execution finishes and its simulation effect
remains — but the final history entry is the ordinary success record
(`success = true`, no cancellation marking exists in the data model), and
the entire final state is identical to the run without any cancellation,
refuting the claim that the final history entry is tagged `Cancelled`. -/
theorem C8_counterexample :
    (processWithCancelMidExecution initState goodReq (.ok goodResponse) effSpec).1 = true ∧
    (processWithCancelMidExecution initState goodReq (.ok goodResponse) effSpec).2 =
      processModificationRequest initState goodReq (.ok goodResponse) effSpec ∧
    (processModificationRequest initState goodReq (.ok goodResponse) effSpec).2.executionHistory =
      [{ rid := 0, success := true, executionResult := some { success := true } }] ∧
    (processModificationRequest initState goodReq (.ok goodResponse) effSpec).2.simCounter = 1 := by
  refine ⟨rfl, rfl, rfl, rfl⟩

/-- C8 (amended): for an in-flight request, `cancelRequest` returns `true`
(and removes the id from the pending map); the in-progress sandboxed call
still finishes and its simulation effects remain observable; but the final
recorded history entry is the normal completion record — cancellation has
no effect whatsoever on the recorded outcome or any other final state. -/
theorem C8_cancelCooperative (st : SvcState) (req text : String) (pc : ParsedCode)
    (spec : ExecSpec)
    (hne : req ≠ "") (hlen : ¬ 1000 < req.length)
    (hparse : parseCodeResponse text = .ok pc)
    (hen : st.enableSafetyChecks = true)
    (hsafe : performSafetyChecksViolations pc.code req = [])
    (hfresh : st.idsAllocated ∉ st.pending) :
    (processWithCancelMidExecution st req (.ok text) spec).1 = true ∧
    (processWithCancelMidExecution st req (.ok text) spec).2 =
      processModificationRequest st req (.ok text) spec ∧
    (processModificationRequest st req (.ok text) spec).2.simCounter =
      st.simCounter + spec.effect := by
  have hA := phaseA_ready st req text pc hne hlen hparse hen hsafe
  have herase : (st.pending ++ [st.idsAllocated]).erase st.idsAllocated = st.pending := by
    rw [List.erase_append_right _ hfresh]
    simp
  refine ⟨?_, ?_, ?_⟩
  · unfold processWithCancelMidExecution
    rw [hA]
    simp [cancelRequest, postGenState]
  · unfold processWithCancelMidExecution processModificationRequest
    rw [hA]
    simp [cancelRequest, phaseB, postGenState, herase, List.erase_of_not_mem hfresh]
  · unfold processModificationRequest
    rw [hA]
    simp [phaseB, postGenState]

/-- C8 witness: the amended theorem applied to the cancel-mid-execution
scenario on a fresh service. -/
theorem C8_cancelCooperative_witness :
    (processWithCancelMidExecution initState goodReq (.ok goodResponse) effSpec).1 = true ∧
    (processWithCancelMidExecution initState goodReq (.ok goodResponse) effSpec).2 =
      processModificationRequest initState goodReq (.ok goodResponse) effSpec ∧
    (processModificationRequest initState goodReq (.ok goodResponse) effSpec).2.simCounter = 1 :=
  C8_cancelCooperative initState goodReq goodResponse
    { code := "game.createEntity()", explanation := "Adding a player", codeBlocks := 1 }
    effSpec (by decide) (by decide) rfl rfl rfl (by decide)

/-! ## C10 — executor failures surface as nested outcomes under a
top-level success -/

/-- C10: if the generated code throws, `executeGeneratedCode` returns
normally with `success = false` and the classified error type, and
`processModificationRequest` still resolves with a top-level `.ok` result
whose `success` field is `true` — the failure is visible only in the nested
execution outcome. -/
theorem C10_nestedOutcome (st : SvcState) (req text msg : String)
    (pc : ParsedCode) (spec : ExecSpec)
    (hne : req ≠ "") (hlen : ¬ 1000 < req.length)
    (hparse : parseCodeResponse text = .ok pc)
    (hen : st.enableSafetyChecks = true)
    (hsafe : performSafetyChecksViolations pc.code req = [])
    (hfail : spec.outcome = .error msg) :
    executeGeneratedCode spec =
      { success := false
        errorType := some (categorizeExecutionError msg)
        errorMessage := some msg } ∧
    (processModificationRequest st req (.ok text) spec).1 =
      .ok { rid := st.idsAllocated
            success := true
            generatedCode := pc.code
            explanation := pc.explanation
            executionResult := { success := false
                                 errorType := some (categorizeExecutionError msg)
                                 errorMessage := some msg }
            tokensUsed := estimatedTokens text } := by
  refine ⟨executeGeneratedCode_error spec msg hfail, ?_⟩
  unfold processModificationRequest
  rw [phaseA_ready st req text pc hne hlen hparse hen hsafe]
  simp [phaseB, executeGeneratedCode_error spec msg hfail]

/-- C10 witness: the theorem applied to the `boom`-throwing execution on a
fresh service. -/
theorem C10_nestedOutcome_witness :
    executeGeneratedCode failSpec =
      { success := false, errorType := some "execution_error", errorMessage := some "boom" } ∧
    (processModificationRequest initState goodReq (.ok goodResponse) failSpec).1 =
      .ok { rid := 0
            success := true
            generatedCode := "game.createEntity()"
            explanation := "Adding a player"
            executionResult := { success := false
                                 errorType := some "execution_error"
                                 errorMessage := some "boom" }
            tokensUsed := 12 } :=
  C10_nestedOutcome initState goodReq goodResponse "boom"
    { code := "game.createEntity()", explanation := "Adding a player", codeBlocks := 1 }
    failSpec (by decide) (by decide) rfl rfl rfl rfl

/-! ## C2 — execution serialization: atomic, but not FIFO -/

lemma runSched_eq (s : List Step) : ∀ n, runSched s n = n + (execOrder s).length := by
  induction s with
  | nil => intro n; simp [runSched, execOrder]
  | cons x r ih =>
    intro n
    cases x with
    | genDone i => simp [runSched, execOrder, ih]
    | execRun i => simp [runSched, execOrder, ih n.succ]; omega

/-- A schedule the code admits in which request `1`'s oracle round-trip
finishes first, so its execution precedes request `0`'s. -/
def fifoCex : List Step := [Step.genDone 1, Step.execRun 1, Step.genDone 0, Step.execRun 0]

/-- The FIFO-submission-order schedule of the same two requests. -/
def fifoSched : List Step := [Step.genDone 0, Step.execRun 0, Step.genDone 1, Step.execRun 1]

/-- C2 counterexample.  For requests submitted in order `[0, 1]`, the code
admits the schedule in which request `1`'s generation completes first and
its execution therefore runs first (`execOrder = [1, 0]`): nothing in
`executeGeneratedCode` implements an execution queue, so execution order is
generation-completion order, refuting the claimed FIFO-submission-order
serialization (the shared counter still ends at `2`). -/
theorem C2_counterexample :
    validSched [0, 1] fifoCex ∧ execOrder fifoCex ≠ [0, 1] ∧ runSched fifoCex 0 = 2 := by
  refine ⟨by decide, by decide, rfl⟩

/-- C2 (amended): at most one generated snippet mutates the simulation at a
time — not because of a lock, but because `executeWithTimeout` runs the
generated code synchronously, making each execution one atomic step of the
single-threaded event loop.  Hence, for any schedule of `N` concurrently
submitted requests whose generated code each increments the shared counter
once, the counter ends at exactly `N` (no lost updates); execution order,
however, is generation-completion order, not FIFO submission order. -/
theorem C2_serializedCount (ids : List Nat) (s : List Step)
    (h : validSched ids s) : runSched s 0 = ids.length := by
  rw [runSched_eq s 0, List.Perm.length_eq h.1]
  omega

/-- C2 witness: the amended theorem applied to a concrete valid schedule of
two increment requests. -/
theorem C2_serializedCount_witness : runSched fifoSched 0 = 2 :=
  C2_serializedCount [0, 1] fifoSched (by decide)

/-! ## C5 — the retry policy of the generation client -/

lemma retryLoop_ok (oracle : Nat → Except String String) (d : Nat) (r : String) :
    ∀ (k a f : Nat), 1 ≤ k → k ≤ f →
    (∀ i, i < k - 1 → ∃ msg, oracle (a + i) = .error msg ∧ shouldNotRetry msg = false) →
    oracle (a + (k - 1)) = .ok r →
    retryLoop oracle d a f =
      (.ok r, k, (List.range (k - 1)).map (fun j => d * 2 ^ (a + j - 1))) := by
  intro k
  induction k with
  | zero => omega
  | succ k' ih =>
    intro a f hk1 hkf hfail hok
    rcases Nat.eq_zero_or_pos k' with hz | hpos
    · subst hz
      simp only [Nat.add_sub_cancel, Nat.add_zero] at hok
      obtain ⟨f', rfl⟩ : ∃ f', f = f' + 1 := ⟨f - 1, by omega⟩
      simp [retryLoop, hok]
    · obtain ⟨msg, herr, hret⟩ := hfail 0 (by omega)
      simp only [Nat.add_zero] at herr
      obtain ⟨g, rfl⟩ : ∃ g, f = g + 2 := ⟨f - 2, by omega⟩
      have ihx := ih (a + 1) (g + 1) hpos (by omega)
        (fun i hi => by
          obtain ⟨m2, h2, h3⟩ := hfail (i + 1) (by omega)
          exact ⟨m2, by rw [show a + 1 + i = a + (i + 1) by omega]; exact h2, h3⟩)
        (by rw [show a + 1 + (k' - 1) = a + (k' + 1 - 1) by omega]; exact hok)
      simp only [retryLoop, herr, hret, Bool.false_eq_true, if_false, ihx]
      simp only [Prod.mk.injEq, true_and]
      rw [Nat.add_sub_cancel]
      conv_rhs => rw [show k' = (k' - 1) + 1 by omega, List.range_succ_eq_map]
      simp only [List.map_cons, List.map_map, List.cons.injEq]
      refine ⟨by rw [show a + 0 - 1 = a - 1 by omega], ?_⟩
      apply List.map_congr_left
      intro j hj
      simp only [Function.comp_apply]
      rw [show a + 1 + j - 1 = a + Nat.succ j - 1 by omega]

/-- C5: the generation client's retry policy.  (1) An error matching a
non-retryable marker (authentication / malformed-request failures) aborts
after exactly one oracle call with no backoff sleep.  (2) If the first
`k - 1` attempts fail with retryable (transient) errors and attempt
`k ≤ retryAttempts` succeeds, the overall call succeeds after exactly `k`
oracle calls, having slept the exponential backoff delays
`retryDelay * 2 ^ (attempt - 1)` between attempts. -/
theorem C5_retryPolicy :
    (∀ (oracle : Nat → Except String String) (d n : Nat) (e : String),
       1 ≤ n → oracle 1 = .error e → shouldNotRetry e = true →
       makeRequestWithRetry oracle n d = (.error e, 1, [])) ∧
    (∀ (oracle : Nat → Except String String) (d n k : Nat) (r : String),
       1 ≤ k → k ≤ n →
       (∀ i, i < k - 1 → ∃ msg, oracle (1 + i) = .error msg ∧ shouldNotRetry msg = false) →
       oracle k = .ok r →
       makeRequestWithRetry oracle n d =
         (.ok r, k, (List.range (k - 1)).map (fun j => d * 2 ^ j))) := by
  constructor
  · intro oracle d n e hn h1 hret
    obtain ⟨n', rfl⟩ : ∃ n', n = n' + 1 := ⟨n - 1, by omega⟩
    unfold makeRequestWithRetry
    simp [retryLoop, h1, hret]
  · intro oracle d n k r hk1 hkn hfail hok
    unfold makeRequestWithRetry
    rw [retryLoop_ok oracle d r k 1 n hk1 hkn
      (fun i hi => hfail i hi)
      (by rw [show 1 + (k - 1) = k by omega]; exact hok)]
    simp only [Prod.mk.injEq, true_and]
    apply List.map_congr_left
    intro j hj
    rw [show 1 + j - 1 = j by omega]

/-- The spec's retry scenario: the oracle times out on attempts 1 and 2 and
succeeds on attempt 3. -/
def timeoutThenOk : Nat → Except String String := fun i =>
  if i < 3 then .error "Request timeout after 30000ms" else .ok "generated"

/-- An oracle that always fails authentication. -/
def authFailOracle : Nat → Except String String := fun _ => .error "Invalid API key"

/-- C5 witness: two consecutive timeouts then a success yield an overall
success after exactly three oracle calls with backoff delays 1000 and 2000;
an authentication failure aborts after one call. -/
theorem C5_retryPolicy_witness :
    makeRequestWithRetry timeoutThenOk 3 1000 = (.ok "generated", 3, [1000, 2000]) ∧
    makeRequestWithRetry authFailOracle 3 1000 = (.error "Invalid API key", 1, []) :=
  ⟨C5_retryPolicy.2 timeoutThenOk 1000 3 3 "generated" (by decide) (by decide)
     (fun i hi =>
       ⟨"Request timeout after 30000ms",
        by unfold timeoutThenOk; rw [if_pos (by omega)],
        by decide⟩)
     (by unfold timeoutThenOk; rw [if_neg (by omega)]),
   C5_retryPolicy.1 authFailOracle 1000 3 "Invalid API key" (by decide) rfl (by decide)⟩

/-! ## C9 — the bounded history ring -/

lemma addToHistory_le (h : List HistoryEntry) (e : HistoryEntry)
    (hle : h.length ≤ 50) : (addToHistory h e).length ≤ 50 := by
  unfold addToHistory
  split
  · simp only [List.length_tail, List.length_append, List.length_singleton]
    omega
  · rename_i hc
    simp only [List.length_append, List.length_singleton] at hc ⊢
    omega

lemma addToHistory_lt (h : List HistoryEntry) (e : HistoryEntry)
    (hlt : h.length < 50) : addToHistory h e = h ++ [e] := by
  unfold addToHistory
  rw [if_neg]
  simp only [List.length_append, List.length_singleton]
  omega

lemma addToHistory_full (h : List HistoryEntry) (e : HistoryEntry)
    (hfull : h.length = 50) : addToHistory h e = h.tail ++ [e] := by
  unfold addToHistory
  rw [if_pos]
  · cases h with
    | nil => simp at hfull
    | cons x t => rfl
  · simp only [List.length_append, List.length_singleton]
    omega

lemma getHistory_of_le (h : List HistoryEntry) (hle : h.length ≤ 50) :
    getHistory 50 h = h := by
  unfold getHistory
  rw [if_neg (by decide), Nat.sub_eq_zero_of_le hle, List.drop_zero]

lemma filter_rid_eq_nil (h : List HistoryEntry) (n : Nat)
    (hfresh : ∀ x ∈ h, x.rid ≠ n) :
    h.filter (fun x => x.rid == n) = [] := by
  rw [List.filter_eq_nil_iff]
  intro x hx
  simp [hfresh x hx]

/-- C9: the history ring.  (1) Appending preserves the 50-entry bound.
(2) Appending to a non-full ring is a plain append.  (3) Appending to a
full ring evicts exactly the oldest entry.  (4) A successfully completed
request with a fresh id appears exactly once in `getHistory 50` immediately
after its entry is appended. -/
theorem C9_historyRing :
    (∀ (h : List HistoryEntry) (e : HistoryEntry),
       h.length ≤ 50 → (addToHistory h e).length ≤ 50) ∧
    (∀ (h : List HistoryEntry) (e : HistoryEntry),
       h.length < 50 → addToHistory h e = h ++ [e]) ∧
    (∀ (h : List HistoryEntry) (e : HistoryEntry),
       h.length = 50 → addToHistory h e = h.tail ++ [e]) ∧
    (∀ (h : List HistoryEntry) (e : HistoryEntry),
       e.success = true → h.length ≤ 50 → (∀ x ∈ h, x.rid ≠ e.rid) →
       ((getHistory 50 (addToHistory h e)).filter (fun x => x.rid == e.rid)).length = 1) := by
  refine ⟨addToHistory_le, addToHistory_lt, addToHistory_full, ?_⟩
  intro h e _hsucc hle hfresh
  rcases Nat.lt_or_ge h.length 50 with hlt | hge
  · rw [addToHistory_lt h e hlt,
      getHistory_of_le _ (by simp only [List.length_append, List.length_singleton]; omega),
      List.filter_append, filter_rid_eq_nil h e.rid hfresh]
    simp
  · have hfull : h.length = 50 := by omega
    rw [addToHistory_full h e hfull,
      getHistory_of_le _ (by
        cases h with
        | nil => simp at hfull
        | cons x t =>
          simp only [List.length_append, List.length_tail]
          simp only [List.length_cons] at hfull
          simp
          omega),
      List.filter_append,
      filter_rid_eq_nil h.tail e.rid (fun x hx => hfresh x (List.mem_of_mem_tail hx))]
    simp

/-- The history entry of request `i` used by the ring witness. -/
def ringEntry (i : Nat) : HistoryEntry := { rid := i, success := true }

/-- A full ring of 50 entries with ids `0..49`. -/
def fullRing : List HistoryEntry := (List.range 50).map ringEntry

/-- C9 witness: appending entry 50 to the full ring evicts entry 0, and the
new entry appears exactly once in `getHistory 50`. -/
theorem C9_historyRing_witness :
    addToHistory fullRing (ringEntry 50) = fullRing.tail ++ [ringEntry 50] ∧
    ((getHistory 50 (addToHistory fullRing (ringEntry 50))).filter
       (fun x => x.rid == (ringEntry 50).rid)).length = 1 :=
  ⟨C9_historyRing.2.2.1 fullRing (ringEntry 50) (by decide),
   C9_historyRing.2.2.2 fullRing (ringEntry 50) rfl (by decide) (by decide)⟩

/-! ## C7 — code-block extraction: zero blocks fail hard, the first of
several blocks wins

The general characterization below describes the scanner on backtick-free
segments: for a response `pre ++ "```js\n" ++ code ++ "```" ++ post` whose
three segments contain no backtick, exactly the (trimmed) `code` is
extracted and the explanation is `trim (pre ++ post)`. -/

/-- `l` contains no backtick character. -/
def noB (l : List Char) : Bool := l.all (fun c => !(isBq c))

lemma noB_cons (c : Char) (r : List Char) (h : noB (c :: r) = true) :
    isBq c = false ∧ noB r = true := by
  simp only [noB, List.all_cons, Bool.and_eq_true, Bool.not_eq_true'] at h
  exact ⟨h.1, h.2⟩

lemma fenceB_false (c : Char) (r : List Char) (hc : isBq c = false) :
    fenceB (c :: r) = false := by
  simp [fenceB, hc]

lemma scanGo_noB (l : List Char) : ∀ f : Nat, noB l = true → l.length < f →
    scanGo f l = ([], l) := by
  induction l with
  | nil =>
    intro f _ hf
    obtain ⟨g, rfl⟩ : ∃ g, f = g + 1 := ⟨f - 1, by omega⟩
    rfl
  | cons c r ih =>
    intro f h hf
    obtain ⟨g, rfl⟩ : ∃ g, f = g + 1 := ⟨f - 1, by omega⟩
    obtain ⟨hc, hr⟩ := noB_cons c r h
    simp only [scanGo, fenceB_false c r hc, Bool.false_eq_true, if_false]
    rw [ih g hr (by simp only [List.length_cons] at hf; omega)]

lemma findClose_append (code : List Char) (t : List Char) (h : noB code = true) :
    findClose (code ++ bq :: bq :: bq :: t) = some (code, t) := by
  induction code with
  | nil => rfl
  | cons c code' ih =>
    obtain ⟨hc, hcode'⟩ := noB_cons c code' h
    simp only [List.cons_append, findClose, List.append_eq,
      fenceB_false c (code' ++ bq :: bq :: bq :: t) hc, Bool.false_eq_true, if_false]
    rw [ih hcode']

lemma stripTag_js (t : List Char) : stripTag ('j' :: 's' :: t) = t := rfl

lemma scanGo_block (code t : List Char) (g : Nat) (hcode : noB code = true) :
    scanGo (g + 1) (bq :: bq :: bq :: 'j' :: 's' :: '\n' :: (code ++ bq :: bq :: bq :: t)) =
      (code :: (scanGo g t).1, (scanGo g t).2) := by
  have hfence : fenceB (bq :: bq :: bq :: 'j' :: 's' :: '\n' ::
      (code ++ bq :: bq :: bq :: t)) = true := rfl
  simp only [scanGo, hfence, if_true, List.drop_succ_cons, List.drop_zero]
  rw [stripTag_js, show stripNl ('\n' :: (code ++ bq :: bq :: bq :: t)) =
      code ++ bq :: bq :: bq :: t from rfl]
  rw [findClose_append code t hcode]

lemma scanGo_prepend (pre : List Char) : ∀ (rest : List Char) (f : Nat),
    noB pre = true → pre.length + rest.length < f →
    scanGo f (pre ++ rest) =
      ((scanGo (f - pre.length) rest).1, pre ++ (scanGo (f - pre.length) rest).2) := by
  induction pre with
  | nil => intro rest f _ _; simp
  | cons c pre' ih =>
    intro rest f h hf
    obtain ⟨g, rfl⟩ : ∃ g, f = g + 1 := ⟨f - 1, by omega⟩
    obtain ⟨hc, hpre'⟩ := noB_cons c pre' h
    simp only [List.cons_append, scanGo, List.append_eq,
      fenceB_false c (pre' ++ rest) hc, Bool.false_eq_true, if_false]
    rw [ih rest g hpre' (by simp only [List.length_cons] at hf; omega)]
    simp only [List.length_cons, Nat.succ_sub_succ, List.cons_append]

lemma scanGo_single (pre code post : List Char)
    (hpre : noB pre = true) (hcode : noB code = true) (hpost : noB post = true)
    (f : Nat)
    (hf : (pre ++ (bq :: bq :: bq :: 'j' :: 's' :: '\n' ::
            (code ++ bq :: bq :: bq :: post))).length < f) :
    scanGo f (pre ++ (bq :: bq :: bq :: 'j' :: 's' :: '\n' ::
        (code ++ bq :: bq :: bq :: post))) = ([code], pre ++ post) := by
  have hlen : pre.length + (bq :: bq :: bq :: 'j' :: 's' :: '\n' ::
      (code ++ bq :: bq :: bq :: post)).length < f := by
    simp only [List.length_append] at hf
    omega
  rw [scanGo_prepend pre _ f hpre hlen]
  obtain ⟨g, hg⟩ : ∃ g, f - pre.length = g + 1 :=
    ⟨f - pre.length - 1, by
      simp only [List.length_cons, List.length_append] at hlen
      omega⟩
  have hpostlen : post.length < g := by
    simp only [List.length_cons, List.length_append] at hlen
    omega
  rw [hg, scanGo_block code post g hcode, scanGo_noB post g hpost hpostlen]

lemma data_append (a b : String) : (a ++ b).data = a.data ++ b.data := by
  cases a
  cases b
  rfl

/-- C7 counterexample.  A response with two fenced blocks parses
*successfully* — the first block becomes the code (`codeBlocks = 2` is
recorded) — refuting the claim that multiple code blocks are a hard
failure. -/
theorem C7_counterexample :
    parseCodeResponse "Intro\n```js\naaa\n```\nmid\n```js\nbbb\n```" =
      .ok { code := "aaa", explanation := "Intro\n\nmid", codeBlocks := 2 } := by
  rfl

/-- C7 (amended): a response with zero fenced code blocks is a hard failure
(`No code blocks found in response`); when one or more blocks are present
the artifact's code is the *first* block (multiple blocks are not an
error), and the explanation is the response text with the code-block
matches removed and trimmed.  Stated for responses whose segments are
backtick-free, which pins down the scanner exactly. -/
theorem C7_parseFirstBlock :
    (∀ text : String, noB text.data = true →
       parseCodeResponse text = .error "No code blocks found in response") ∧
    (∀ pre code post : String,
       noB pre.data = true → noB code.data = true → noB post.data = true →
       extractCodeBlocks (pre ++ "```js\n" ++ code ++ "```" ++ post) = [trimS code] ∧
       extractExplanation (pre ++ "```js\n" ++ code ++ "```" ++ post) = trimS (pre ++ post) ∧
       (validateGeneratedCode (trimS code) = .ok () →
         parseCodeResponse (pre ++ "```js\n" ++ code ++ "```" ++ post) =
           .ok { code := trimS code
                 explanation := trimS (pre ++ post)
                 codeBlocks := 1 })) := by
  have hmain : ∀ pre code post : String,
      noB pre.data = true → noB code.data = true → noB post.data = true →
      extractCodeBlocks (pre ++ "```js\n" ++ code ++ "```" ++ post) = [trimS code] ∧
      extractExplanation (pre ++ "```js\n" ++ code ++ "```" ++ post) = trimS (pre ++ post) := by
    intro pre code post hpre hcode hpost
    have hdata : (pre ++ "```js\n" ++ code ++ "```" ++ post).data =
        pre.data ++ (bq :: bq :: bq :: 'j' :: 's' :: '\n' ::
          (code.data ++ bq :: bq :: bq :: post.data)) := by
      simp only [data_append, List.append_assoc]
      rfl
    constructor
    · unfold extractCodeBlocks
      rw [hdata, scanGo_single pre.data code.data post.data hpre hcode hpost _
        (Nat.lt_succ_self _)]
      rfl
    · unfold extractExplanation
      rw [hdata, scanGo_single pre.data code.data post.data hpre hcode hpost _
        (Nat.lt_succ_self _)]
      unfold trimS
      rw [data_append]
  constructor
  · intro text h
    unfold parseCodeResponse extractCodeBlocks
    rw [scanGo_noB text.data _ h (Nat.lt_succ_self _)]
    rfl
  · intro pre code post hpre hcode hpost
    obtain ⟨hblocks, hexpl⟩ := hmain pre code post hpre hcode hpost
    refine ⟨hblocks, hexpl, ?_⟩
    intro hval
    unfold parseCodeResponse
    rw [hblocks]
    simp [hval, hexpl]

/-- C7 witness: the amended theorem applied to a one-block response. -/
theorem C7_parseFirstBlock_witness :
    parseCodeResponse ("Here\n" ++ "```js\n" ++ "game.createEntity()" ++ "```" ++ "\nDone") =
      .ok { code := "game.createEntity()", explanation := "Here\n\nDone", codeBlocks := 1 } :=
  (C7_parseFirstBlock.2 "Here\n" "game.createEntity()" "\nDone"
    (by decide) (by decide) (by decide)).2.2 (by rfl)

end DynMod
